import Mathlib

/-!
Shallow embedding of the hazana load-runner (package `hazana`, files
`runner.go` and its successor revision) and proofs of the specified
properties of the runner: attacker-pool lifecycle, linear ramp-up
sizing, pipeline redirection, metrics aggregation, sample mode,
quit-signal fan-out and teardown.

Go machine integers are modelled as `Nat` (all quantities involved —
rates, pool sizes, step indices — are non-negative and far from
overflow in every reachable configuration), `float64` measured rates as
`ℚ`, and fallible external calls (`Setup`, `Teardown`) as
`Option String` results (`none` = success, `some e` = error `e`).
Real time, goroutine scheduling and channel interleavings are
abstracted into explicit per-step inputs: the number of dispatch
signals a one-second window manages to send, and the measured rate a
step observes, are free parameters, so every theorem quantifies over
all schedules.
-/

namespace Hazana

/-- Configuration (`Config`): the load profile fields the runner reads.
`rampupStrategy` stands for the value returned by the
`c.rampupStrategy()` selector accessor (the accessor body is outside
the runner file; the runner only branches on the string it returns). -/
structure Config where
  RPS : Nat
  AttackTimeSec : Nat
  RampupTimeSec : Nat
  MaxAttackers : Nat
  Verbose : Bool
  rampupStrategy : String

/-- The outcome fields of one `Do` invocation (`DoResult`) that the
aggregation path reads: the request label and the optional error. -/
structure DoResult where
  RequestLabel : String
  Error : Option String

/-- One element of the results channel (`result`): the `DoResult`
together with the latency of the call, in nanoseconds. -/
structure result where
  doResult : DoResult
  latency : Nat

/-- Modelled from the spec: the `Metrics` record lives outside the
runner file; per the spec it is a per-label running aggregate holding
the total call count, the error count, the recorded latency samples and
a derived achieved rate. -/
structure Metrics where
  Requests : Nat
  failed : Nat
  latencies : List Nat
  Rate : ℚ

def Metrics.empty : Metrics := ⟨0, 0, [], 0⟩

/-- Modelled from the spec: `Metrics.add` increments the call count,
increments the error count when the outcome carries an error, and
records the latency sample. -/
def Metrics.add (m : Metrics) (s : result) : Metrics :=
  { m with
    Requests := m.Requests + 1
    failed := m.failed + (if s.doResult.Error.isSome then 1 else 0)
    latencies := m.latencies ++ [s.latency] }

/-- Modelled from the spec: `updateLatencies` finalizes a record,
deriving the achieved rate as count divided by the elapsed window. -/
def Metrics.updateLatencies (window : ℚ) (m : Metrics) : Metrics :=
  { m with Rate := (m.Requests : ℚ) / window }

/-- Which aggregation function `r.resultsPipeline` currently holds:
the cumulative `r.addResult`, or the closure created by a ramp-up step
that adds into that step's transient `rampMetrics` record (identified
by its index in the list of step records). -/
inductive Pipeline where
  | cumulative
  | rampStep (idx : Nat)
deriving DecidableEq

/-- The runner state (`runner`) as the claims observe it. `attackers`
is the registered pool; `unitsStarted` counts the `go attack(...)`
execution units launched; `metrics` is the cumulative label-keyed map
(`none` = key absent); `rampRecords` collects the transient per-step
`rampMetrics` records created by ramp-up steps; `dispatched` counts
`r.next <- true` sends; `setupOutcomes k` is the result of the `k`-th
`Setup` call made through `spawnAttacker` and `setupCalls` the number
made so far; `prototype`/`clone` model the `Attack` prototype. -/
structure RunnerState (α : Type) where
  config : Config
  attackers : List α
  unitsStarted : Nat
  metrics : String → Option Metrics
  rampRecords : List Metrics
  pipeline : Pipeline
  dispatched : Nat
  prototype : α
  clone : α → α
  setupOutcomes : Nat → Option String
  setupCalls : Nat

/-- Method `r.init()`: fresh channels aside, it empties the pool and
the metrics map and points the pipeline at the cumulative aggregator. -/
def init {α : Type} (st : RunnerState α) : RunnerState α :=
  { st with
    attackers := []
    unitsStarted := 0
    metrics := fun _ => none
    rampRecords := []
    pipeline := .cumulative
    dispatched := 0
    setupCalls := 0 }

/-- Method `r.addResult`: look the label up in the map, create a fresh
record on a miss, and fold the outcome into it. -/
def addResult (m : String → Option Metrics) (s : result) : String → Option Metrics :=
  fun l =>
    if l = s.doResult.RequestLabel then
      some (((m s.doResult.RequestLabel).getD Metrics.empty).add s)
    else m l

/-- The cumulative metrics map obtained by feeding a list of call
outcomes through `addResult`, starting from the empty map of a freshly
initialized runner. -/
def metricsOf (os : List result) : String → Option Metrics :=
  os.foldl addResult (fun _ => none)

/-- One turn of the `collectResults` consumer: apply whatever function
`r.resultsPipeline` currently holds to the received outcome. -/
def processOutcome {α : Type} (st : RunnerState α) (s : result) : RunnerState α :=
  match st.pipeline with
  | .cumulative => { st with metrics := addResult st.metrics s }
  | .rampStep i =>
      { st with
        rampRecords := st.rampRecords.set i ((st.rampRecords.getD i Metrics.empty).add s) }

/-- Method `r.spawnAttacker()`: clone the prototype, run `Setup`; on
error log and return with the state unchanged, on success register the
clone and start one execution unit for it. -/
def spawnAttacker {α : Type} (st : RunnerState α) : RunnerState α :=
  let attacker := st.clone st.prototype
  match st.setupOutcomes st.setupCalls with
  | some _ => { st with setupCalls := st.setupCalls + 1 }
  | none =>
      { st with
        setupCalls := st.setupCalls + 1
        attackers := st.attackers ++ [attacker]
        unitsStarted := st.unitsStarted + 1 }

/-- The per-step target rate of the linear strategy:
`rps := i * r.config.RPS / r.config.RampupTimeSec` with truncating
integer division, bumped to `1` when it comes out `0`. -/
def stepRPS (i RPS N : Nat) : Nat :=
  let rps := i * RPS / N
  if rps = 0 then 1 else rps

/-- The spawn loop of a linear ramp-up step:
`for s := len(r.attackers); s < wanted; s++` spawns while `s` is below
`MaxAttackers`; at or above the maximum a verbose runner logs and
breaks while a quiet one idles through the remaining iterations —
either way no further attacker is spawned. -/
def spawnLoop {α : Type} (wanted maxA : Nat) (verbose : Bool) (s : Nat)
    (st : RunnerState α) : RunnerState α :=
  if s < wanted then
    if s < maxA then
      spawnLoop wanted maxA verbose (s + 1) (spawnAttacker st)
    else if verbose then st
    else spawnLoop wanted maxA verbose (s + 1) st
  else st
  termination_by wanted - s

/-- The measured data a one-second ramp-up step feeds back: how many
dispatch signals the window managed to send, and the achieved rate
`rampMetrics.Rate` observed at its end. Both depend on real time and
scheduling, so they are inputs of the model. -/
structure StepInput where
  dispatchCount : Nat
  measuredRate : ℚ

/-- The correction tail of a linear ramp-up step: when the achieved
`rate` is positive and below the target `rps`, and moreover under the
90% spawn threshold ratio, run the spawn loop towards the desired pool
size `trunc(rps/rate) * len(r.attackers)`. -/
def rampSpawnPhase {α : Type} (rps : Nat) (rate : ℚ) (st1 : RunnerState α) : RunnerState α :=
  if 0 < rate ∧ rate < (rps : ℚ) then
    if rate / (rps : ℚ) < 9 / 10 then
      spawnLoop (Int.toNat ⌊(rps : ℚ) / rate⌋ * st1.attackers.length)
        st1.config.MaxAttackers st1.config.Verbose st1.attackers.length st1
    else st1
  else st1

/-- One iteration `i` of the linear ramp-up loop: allocate the step's
transient record and point the pipeline at it, dispatch for one second
at `stepRPS`, then run the spawn-correction phase on the step's
measured rate. -/
def rampStep {α : Type} (i : Nat) (inp : StepInput) (st : RunnerState α) : RunnerState α :=
  rampSpawnPhase (stepRPS i st.config.RPS st.config.RampupTimeSec) inp.measuredRate
    { st with
      rampRecords := st.rampRecords ++ [Metrics.empty]
      pipeline := .rampStep st.rampRecords.length
      dispatched := st.dispatched + inp.dispatchCount }

/-- The first `k` iterations of the linear ramp-up loop after its
bootstrap `r.spawnAttacker()`: the loop body runs for `i = 1, …, k`. -/
def linearExecuteSteps {α : Type} (inputs : Nat → StepInput) :
    Nat → RunnerState α → RunnerState α
  | 0, st => spawnAttacker st
  | k + 1, st => rampStep (k + 1) (inputs (k + 1)) (linearExecuteSteps inputs k st)

/-- The linear strategy
(`linearIncreasingGoroutinesAndRequestsPerSecondStrategy.execute`):
bootstrap spawn followed by one step per ramp-up second. -/
def linearExecute {α : Type} (inputs : Nat → StepInput) (st : RunnerState α) : RunnerState α :=
  linearExecuteSteps inputs st.config.RampupTimeSec st

/-- Method `r.rampUp()`: dispatch on the strategy selector — `"linear"`
and `"exp2"` run their strategies, any other string runs nothing — then
unconditionally restore the pipeline to the cumulative aggregator.
The `exp2` strategy body lives outside the runner file, so it is a
parameter here; every theorem about `rampUp` holds for all of them. -/
def rampUp {α : Type} (exp2Execute : RunnerState α → RunnerState α)
    (inputs : Nat → StepInput) (st : RunnerState α) : RunnerState α :=
  let strategy := st.config.rampupStrategy
  let st1 :=
    if strategy = "linear" then linearExecute inputs st
    else if strategy = "exp2" then exp2Execute st
    else st
  { st1 with pipeline := .cumulative }

/-- Method `r.fullAttack()`: the steady-state dispatcher only sends
paced dispatch signals; `n` is how many the window manages to send. -/
def fullAttack {α : Type} (n : Nat) (st : RunnerState α) : RunnerState α :=
  { st with dispatched := st.dispatched + n }

/-- Method `r.quitAttackers()`: one `r.quit <- true` send per element
of `r.attackers`, returned as the list of quit signals sent. -/
def quitAttackers {α : Type} : List α → List Unit
  | [] => []
  | _ :: rest => () :: quitAttackers rest

/-- Method `r.tearDownAttackers()`: call `Teardown` on every registered
attacker in order; an error is logged and iteration continues. The
trace pairs each attacker with its `Teardown` result. -/
def tearDownAttackers {α : Type} (td : α → Option String) :
    List α → List (α × Option String)
  | [] => []
  | a :: rest => (a, td a) :: tearDownAttackers td rest

/-- The run report (`RunReport`): the configuration used and the
finalized label-keyed metrics. -/
structure RunReport where
  Configuration : Config
  Metrics : String → Option Metrics

/-- Method `r.reportMetrics()`: finalize every record, then snapshot. -/
def reportMetrics {α : Type} (window : ℚ) (st : RunnerState α) : RunReport :=
  { Configuration := st.config
    Metrics := fun l => (st.metrics l).map (Metrics.updateLatencies window) }

/-- Method `r.run()`: ramp-up, steady state, quit fan-out, teardown,
then report assembly. -/
def run {α : Type} (exp2Execute : RunnerState α → RunnerState α)
    (inputs : Nat → StepInput) (fullN : Nat) (window : ℚ)
    (st : RunnerState α) : RunReport :=
  reportMetrics window (fullAttack fullN (rampUp exp2Execute inputs st))

/-- What a whole invocation of `Run` did, as sample mode observes it:
how many clones were made and how many `Do` calls performed by the test
probe, whether its `Teardown` ran, whether `Validate` was consulted and
whether the full pipeline (`r.init(); r.run()`) was entered. -/
structure RunTrace where
  clonesMade : Nat
  doCalls : Nat
  teardownCalled : Bool
  validated : Bool
  pipelineEntered : Bool
deriving DecidableEq

/-- The `for s := count; s > 0; s--` probe loop of `r.test`: the number
of `Do` invocations it performs. -/
def testCalls : Nat → Nat
  | 0 => 0
  | n + 1 => testCalls n + 1

/-- Method `r.test(count)`: clone the prototype once and `Setup` it; on
error log and return (the deferred `Teardown` is not yet registered);
on success defer `Teardown` and run the probe loop. -/
def test (setupFails : Bool) (count : Nat) : RunTrace :=
  if setupFails then
    { clonesMade := 1, doCalls := 0, teardownCalled := false
      validated := false, pipelineEntered := false }
  else
    { clonesMade := 1, doCalls := testCalls count, teardownCalled := true
      validated := false, pipelineEntered := false }

/-- Function `Run(a, c)`: when the sample flag is positive, run
`r.test` and exit without a report; otherwise validate (a non-empty
message list exits without a report), then `r.init()` and `r.run()`. -/
def Run {α : Type} (oSample : Nat) (setupFails : Bool)
    (validateMsgs : List String)
    (exp2Execute : RunnerState α → RunnerState α) (inputs : Nat → StepInput)
    (fullN : Nat) (window : ℚ) (st : RunnerState α) :
    Option RunReport × RunTrace :=
  if 0 < oSample then
    (none, test setupFails oSample)
  else if validateMsgs.length > 0 then
    (none,
      { clonesMade := 0, doCalls := 0, teardownCalled := false
        validated := true, pipelineEntered := false })
  else
    (some (run exp2Execute inputs fullN window (init st)),
      { clonesMade := 0, doCalls := 0, teardownCalled := false
        validated := true, pipelineEntered := true })

/-- A concrete runner state over `Nat`-labelled attackers, used to
instantiate the theorems below at explicit inputs. -/
def probeState (out : Nat → Option String) : RunnerState Nat :=
  { config := { RPS := 10, AttackTimeSec := 30, RampupTimeSec := 4,
                MaxAttackers := 3, Verbose := false, rampupStrategy := "linear" }
    attackers := []
    unitsStarted := 0
    metrics := fun _ => none
    rampRecords := []
    pipeline := .cumulative
    dispatched := 0
    prototype := 0
    clone := fun a => a + 1
    setupOutcomes := out
    setupCalls := 0 }

/-- A concrete runner state whose strategy selector matches no
strategy branch. -/
def probeStateSurge : RunnerState Nat :=
  { probeState (fun _ => none) with
    config := { RPS := 10, AttackTimeSec := 30, RampupTimeSec := 4,
                MaxAttackers := 3, Verbose := false, rampupStrategy := "surge" } }

/-- A concrete successful call outcome with label `"x"`. -/
def outcomeX : result := { doResult := { RequestLabel := "x", Error := none }, latency := 5 }

/-- A concrete failing call outcome with label `"y"`. -/
def outcomeY : result := { doResult := { RequestLabel := "y", Error := some "boom" }, latency := 7 }

/-! Helper lemmas about the embedded operations. -/

theorem spawnAttacker_config {α : Type} (st : RunnerState α) :
    (spawnAttacker st).config = st.config := by
  unfold spawnAttacker
  cases st.setupOutcomes st.setupCalls <;> rfl

theorem spawnAttacker_setupCalls {α : Type} (st : RunnerState α) :
    (spawnAttacker st).setupCalls = st.setupCalls + 1 := by
  unfold spawnAttacker
  cases st.setupOutcomes st.setupCalls <;> rfl

theorem spawnAttacker_length_le {α : Type} (st : RunnerState α) :
    st.attackers.length ≤ (spawnAttacker st).attackers.length ∧
      (spawnAttacker st).attackers.length ≤ st.attackers.length + 1 := by
  unfold spawnAttacker
  cases st.setupOutcomes st.setupCalls <;> simp

theorem spawnAttacker_units_inv {α : Type} (st : RunnerState α)
    (h : st.unitsStarted = st.attackers.length) :
    (spawnAttacker st).unitsStarted = (spawnAttacker st).attackers.length := by
  unfold spawnAttacker
  cases st.setupOutcomes st.setupCalls <;> simp [h]

theorem quitAttackers_length {α : Type} (l : List α) :
    (quitAttackers l).length = l.length := by
  induction l with
  | nil => rfl
  | cons a rest ih => simp [quitAttackers, ih]

theorem testCalls_eq (n : Nat) : testCalls n = n := by
  induction n with
  | zero => rfl
  | succ n ih => simp [testCalls, ih]

theorem stepRPS_pos (i RPS N : Nat) : 0 < stepRPS i RPS N := by
  show 0 < (if i * RPS / N = 0 then 1 else i * RPS / N)
  by_cases h : i * RPS / N = 0 <;> simp [h]
  exact Nat.pos_of_ne_zero h

theorem spawnLoop_facts {α : Type} (wanted maxA : Nat) (v : Bool) :
    ∀ (n s : Nat) (st : RunnerState α), wanted - s = n →
      (spawnLoop wanted maxA v s st).config = st.config ∧
      (spawnLoop wanted maxA v s st).setupCalls = st.setupCalls + (min wanted maxA - s) ∧
      (st.attackers.length ≤ s →
        (spawnLoop wanted maxA v s st).attackers.length ≤ max st.attackers.length maxA) ∧
      (st.unitsStarted = st.attackers.length →
        (spawnLoop wanted maxA v s st).unitsStarted
          = (spawnLoop wanted maxA v s st).attackers.length) := by
  intro n
  induction n with
  | zero =>
    intro s st h
    have hs : ¬ s < wanted := by omega
    rw [spawnLoop, if_neg hs]
    refine ⟨rfl, ?_, fun _ => le_max_left _ _, fun h2 => h2⟩
    have hm : min wanted maxA ≤ s := le_trans (Nat.min_le_left _ _) (by omega)
    omega
  | succ n ih =>
    intro s st h
    by_cases hsw : s < wanted
    · by_cases hsm : s < maxA
      · rw [spawnLoop, if_pos hsw, if_pos hsm]
        obtain ⟨hc, hsc, hlen, hunits⟩ := ih (s + 1) (spawnAttacker st) (by omega)
        refine ⟨?_, ?_, ?_, ?_⟩
        · rw [hc, spawnAttacker_config]
        · rw [hsc, spawnAttacker_setupCalls]
          have hmin : s < min wanted maxA := lt_min hsw hsm
          have hm2 : min wanted maxA ≤ wanted := Nat.min_le_left _ _
          omega
        · intro hl
          have h1 := (spawnAttacker_length_le st).2
          have h3 := hlen (by omega)
          have h4 : max (spawnAttacker st).attackers.length maxA = maxA :=
            max_eq_right (by omega)
          rw [h4] at h3
          exact le_trans h3 (le_max_right _ _)
        · intro hu
          exact hunits (spawnAttacker_units_inv st hu)
      · have hm0 : min wanted maxA ≤ s := le_trans (Nat.min_le_right _ _) (by omega)
        cases v with
        | true =>
          rw [spawnLoop, if_pos hsw, if_neg hsm]
          have he : (if (true : Bool) = true then st
              else spawnLoop wanted maxA true (s + 1) st) = st := if_pos rfl
          rw [he]
          refine ⟨rfl, by omega, fun _ => le_max_left _ _, fun h2 => h2⟩
        | false =>
          rw [spawnLoop, if_pos hsw, if_neg hsm]
          have he : (if (false : Bool) = true then st
              else spawnLoop wanted maxA false (s + 1) st)
              = spawnLoop wanted maxA false (s + 1) st := if_neg Bool.false_ne_true
          rw [he]
          obtain ⟨hc, hsc, hlen, hunits⟩ := ih (s + 1) st (by omega)
          refine ⟨hc, ?_, fun hl => hlen (by omega), hunits⟩
          rw [hsc]
          omega
    · have hs : ¬ s < wanted := hsw
      rw [spawnLoop, if_neg hs]
      refine ⟨rfl, ?_, fun _ => le_max_left _ _, fun h2 => h2⟩
      have hm : min wanted maxA ≤ s := le_trans (Nat.min_le_left _ _) (by omega)
      omega

theorem rampSpawnPhase_facts {α : Type} (rps : Nat) (rate : ℚ) (st1 : RunnerState α) :
    (rampSpawnPhase rps rate st1).config = st1.config ∧
    (st1.attackers.length ≤ st1.config.MaxAttackers →
      (rampSpawnPhase rps rate st1).attackers.length ≤ st1.config.MaxAttackers) ∧
    (st1.unitsStarted = st1.attackers.length →
      (rampSpawnPhase rps rate st1).unitsStarted
        = (rampSpawnPhase rps rate st1).attackers.length) := by
  unfold rampSpawnPhase
  by_cases h1 : 0 < rate ∧ rate < (rps : ℚ)
  · rw [if_pos h1]
    by_cases h2 : rate / (rps : ℚ) < 9 / 10
    · rw [if_pos h2]
      obtain ⟨hc, _, hlen, hunits⟩ :=
        spawnLoop_facts (Int.toNat ⌊(rps : ℚ) / rate⌋ * st1.attackers.length)
          st1.config.MaxAttackers st1.config.Verbose _ st1.attackers.length st1 rfl
      refine ⟨hc, fun hm => ?_, hunits⟩
      have h3 := hlen (le_refl _)
      rw [max_eq_right hm] at h3
      exact h3
    · rw [if_neg h2]
      exact ⟨rfl, fun hm => hm, fun hu => hu⟩
  · rw [if_neg h1]
    exact ⟨rfl, fun hm => hm, fun hu => hu⟩

theorem rampStep_facts {α : Type} (i : Nat) (inp : StepInput) (st : RunnerState α) :
    (rampStep i inp st).config = st.config ∧
    (st.attackers.length ≤ st.config.MaxAttackers →
      (rampStep i inp st).attackers.length ≤ st.config.MaxAttackers) ∧
    (st.unitsStarted = st.attackers.length →
      (rampStep i inp st).unitsStarted = (rampStep i inp st).attackers.length) := by
  unfold rampStep
  exact rampSpawnPhase_facts _ _ _

theorem linearExecuteSteps_facts {α : Type} (inputs : Nat → StepInput) (k : Nat)
    (st : RunnerState α) :
    (linearExecuteSteps inputs k st).config = st.config ∧
    (st.attackers.length = 0 → 1 ≤ st.config.MaxAttackers →
      (linearExecuteSteps inputs k st).attackers.length ≤ st.config.MaxAttackers) ∧
    (st.unitsStarted = st.attackers.length →
      (linearExecuteSteps inputs k st).unitsStarted
        = (linearExecuteSteps inputs k st).attackers.length) := by
  induction k with
  | zero =>
    simp only [linearExecuteSteps]
    refine ⟨spawnAttacker_config st, fun h0 hm => ?_, spawnAttacker_units_inv st⟩
    have := (spawnAttacker_length_le st).2
    omega
  | succ k ih =>
    obtain ⟨hc, hlen, hunits⟩ := ih
    obtain ⟨hc2, hlen2, hunits2⟩ :=
      rampStep_facts (k + 1) (inputs (k + 1)) (linearExecuteSteps inputs k st)
    refine ⟨?_, fun h0 hm => ?_, fun hu => ?_⟩
    · show (rampStep (k + 1) (inputs (k + 1)) (linearExecuteSteps inputs k st)).config
        = st.config
      rw [hc2, hc]
    · show (rampStep (k + 1) (inputs (k + 1)) (linearExecuteSteps inputs k st)).attackers.length
        ≤ st.config.MaxAttackers
      have h3 := hlen h0 hm
      rw [← hc] at h3 hm ⊢
      exact hlen2 h3
    · exact hunits2 (hunits hu)

/-! The claims. -/

/-- C1: for every sequence of measured per-step rates, dispatch
schedules and `Setup` outcomes during linear ramp-up, starting from the
empty pool with its one bootstrap spawn and `MaxAttackers ≥ 1`, after
every ramp-up step the number of registered attacker instances never
exceeds the configured maximum pool size. -/
theorem linear_rampup_pool_bounded {α : Type} (inputs : Nat → StepInput)
    (st : RunnerState α) (hinit : st.attackers.length = 0)
    (hmax : 1 ≤ st.config.MaxAttackers) (k : Nat) :
    (linearExecuteSteps inputs k st).attackers.length ≤ st.config.MaxAttackers :=
  (linearExecuteSteps_facts inputs k st).2.1 hinit hmax

theorem linear_rampup_pool_bounded_witness :
    (linearExecuteSteps (fun _ => ⟨5, (1 : ℚ) / 2⟩) 4
        (probeState fun _ => none)).attackers.length
      ≤ (probeState fun _ => none).config.MaxAttackers :=
  linear_rampup_pool_bounded (fun _ => ⟨5, (1 : ℚ) / 2⟩) (probeState fun _ => none)
    rfl (by decide) 4

/-- C2: at step `i` (1-indexed) of `N` total ramp-up steps with target
rate `R`, the instantaneous target rate configured for that step's rate
limiter equals `max 1 (i*R/N)` (truncating division), and in particular
is never zero, for every `i` in `1..N` and every `R > 0`. -/
theorem linear_step_rate_max (i N R : Nat) (h1 : 1 ≤ i) (h2 : i ≤ N) (hR : 0 < R) :
    stepRPS i R N = max 1 (i * R / N) ∧ stepRPS i R N ≠ 0 := by
  constructor
  · show (if i * R / N = 0 then 1 else i * R / N) = max 1 (i * R / N)
    by_cases h : i * R / N = 0
    · simp [h]
    · rw [if_neg h]
      exact (max_eq_right (Nat.pos_of_ne_zero h)).symm
  · have := stepRPS_pos i R N
    omega

theorem linear_step_rate_max_witness :
    stepRPS 1 10 4 = max 1 (1 * 10 / 4) ∧ stepRPS 1 10 4 ≠ 0 :=
  linear_step_rate_max 1 4 10 (by decide) (by decide) (by decide)

/-- C3: in a linear ramp-up step against target rate `rps`, the
spawn-correction phase runs exactly when the measured rate is strictly
positive and its ratio to `rps` is below `9/10` (the code's extra
`rate < rps` test is implied); when it runs, the desired pool size is
`trunc(rps/rate) * len(attackers)` and one spawn attempt is made for
each index from the current pool size up to the desired size clamped at
`MaxAttackers`; otherwise no spawn attempt is made and the pool is
unchanged. -/
theorem linear_step_spawn_decision {α : Type} (i : Nat) (inp : StepInput)
    (st : RunnerState α) :
    ((0 < inp.measuredRate ∧
        inp.measuredRate / (stepRPS i st.config.RPS st.config.RampupTimeSec : ℚ) < 9 / 10) →
      (rampStep i inp st).setupCalls = st.setupCalls +
        (min (Int.toNat ⌊(stepRPS i st.config.RPS st.config.RampupTimeSec : ℚ) / inp.measuredRate⌋
              * st.attackers.length)
            st.config.MaxAttackers - st.attackers.length)) ∧
    (¬(0 < inp.measuredRate ∧
        inp.measuredRate / (stepRPS i st.config.RPS st.config.RampupTimeSec : ℚ) < 9 / 10) →
      (rampStep i inp st).setupCalls = st.setupCalls ∧
      (rampStep i inp st).attackers = st.attackers) := by
  have hrps : (0 : ℚ) < (stepRPS i st.config.RPS st.config.RampupTimeSec : ℚ) := by
    exact_mod_cast stepRPS_pos i st.config.RPS st.config.RampupTimeSec
  constructor
  · rintro ⟨hpos, hratio⟩
    have hlt : inp.measuredRate < (stepRPS i st.config.RPS st.config.RampupTimeSec : ℚ) := by
      have h9 := (div_lt_iff₀ hrps).mp hratio
      nlinarith
    show (rampSpawnPhase _ _ _).setupCalls = _
    unfold rampSpawnPhase
    rw [if_pos ⟨hpos, hlt⟩, if_pos hratio]
    obtain ⟨_, hsc, _, _⟩ :=
      spawnLoop_facts
        (Int.toNat ⌊(stepRPS i st.config.RPS st.config.RampupTimeSec : ℚ) / inp.measuredRate⌋
          * st.attackers.length)
        st.config.MaxAttackers st.config.Verbose _ st.attackers.length
        { st with
          rampRecords := st.rampRecords ++ [Metrics.empty]
          pipeline := .rampStep st.rampRecords.length
          dispatched := st.dispatched + inp.dispatchCount } rfl
    exact hsc
  · intro hnc
    show (rampSpawnPhase _ _ _).setupCalls = _ ∧ (rampSpawnPhase _ _ _).attackers = _
    unfold rampSpawnPhase
    by_cases hc1 : 0 < inp.measuredRate ∧
        inp.measuredRate < (stepRPS i st.config.RPS st.config.RampupTimeSec : ℚ)
    · rw [if_pos hc1, if_neg (fun hr => hnc ⟨hc1.1, hr⟩)]
      exact ⟨rfl, rfl⟩
    · rw [if_neg hc1]
      exact ⟨rfl, rfl⟩

theorem linear_step_spawn_decision_witness :
    (rampStep 1 ⟨5, (1 : ℚ) / 2⟩ (probeState fun _ => none)).setupCalls
      = (probeState fun _ => none).setupCalls +
        (min (Int.toNat
              ⌊(stepRPS 1 (probeState fun _ => none).config.RPS
                  (probeState fun _ => none).config.RampupTimeSec : ℚ) / ((1 : ℚ) / 2)⌋
              * (probeState fun _ => none).attackers.length)
            (probeState fun _ => none).config.MaxAttackers
          - (probeState fun _ => none).attackers.length) :=
  (linear_step_spawn_decision 1 ⟨5, (1 : ℚ) / 2⟩ (probeState fun _ => none)).1
    (by constructor
        · norm_num
        · show (1 : ℚ) / 2 / ((stepRPS 1 10 4 : Nat) : ℚ) < 9 / 10
          norm_num [stepRPS])

/-- C5: at shutdown `quitAttackers` sends exactly one quit signal per
registered attacker instance; `spawnAttacker` starts an execution unit
exactly when it registers the instance, the unit count matches the pool
size through bootstrap and ramp-up, and hence the number of quit
signals equals the number of live execution units. -/
theorem quit_signals_one_per_attacker {α : Type} :
    (∀ st : RunnerState α, (quitAttackers st.attackers).length = st.attackers.length) ∧
    (∀ st : RunnerState α,
      ((spawnAttacker st).unitsStarted = st.unitsStarted + 1 ↔
        (spawnAttacker st).attackers.length = st.attackers.length + 1)) ∧
    (∀ st : RunnerState α, st.unitsStarted = st.attackers.length →
      (spawnAttacker st).unitsStarted = (spawnAttacker st).attackers.length) ∧
    (∀ (inputs : Nat → StepInput) (k : Nat) (st : RunnerState α),
      st.unitsStarted = st.attackers.length →
      (quitAttackers (linearExecuteSteps inputs k st).attackers).length
        = (linearExecuteSteps inputs k st).unitsStarted) := by
  refine ⟨fun st => quitAttackers_length _, fun st => ?_,
    fun st => spawnAttacker_units_inv st, ?_⟩
  · unfold spawnAttacker
    cases h : st.setupOutcomes st.setupCalls <;> simp
  · intro inputs k st hu
    rw [quitAttackers_length, (linearExecuteSteps_facts inputs k st).2.2 hu]

theorem quit_signals_one_per_attacker_witness :
    (quitAttackers (linearExecuteSteps (fun _ => ⟨5, (1 : ℚ) / 2⟩) 2
        (probeState fun _ => none)).attackers).length
      = (linearExecuteSteps (fun _ => ⟨5, (1 : ℚ) / 2⟩) 2
          (probeState fun _ => none)).unitsStarted :=
  (quit_signals_one_per_attacker (α := Nat)).2.2.2 (fun _ => ⟨5, (1 : ℚ) / 2⟩) 2
    (probeState fun _ => none) rfl

/-- C6: an invocation of `spawnAttacker` in which the clone's `Setup`
returns an error leaves the attackers list unchanged, starts no
execution unit and returns normally; the instance is registered and its
execution unit started exactly when `Setup` succeeds. -/
theorem spawn_setup_failure_discards {α : Type} (st : RunnerState α) :
    (∀ e, st.setupOutcomes st.setupCalls = some e →
      (spawnAttacker st).attackers = st.attackers ∧
      (spawnAttacker st).unitsStarted = st.unitsStarted) ∧
    (st.setupOutcomes st.setupCalls = none →
      (spawnAttacker st).attackers = st.attackers ++ [st.clone st.prototype] ∧
      (spawnAttacker st).unitsStarted = st.unitsStarted + 1) := by
  unfold spawnAttacker
  constructor
  · intro e he
    rw [he]
    exact ⟨rfl, rfl⟩
  · intro he
    rw [he]
    exact ⟨rfl, rfl⟩

theorem spawn_setup_failure_discards_witness :
    (spawnAttacker (probeState fun _ => some "boom")).attackers
        = (probeState fun _ => some "boom").attackers ∧
      (spawnAttacker (probeState fun _ => some "boom")).unitsStarted
        = (probeState fun _ => some "boom").unitsStarted :=
  (spawn_setup_failure_discards (probeState fun _ => some "boom")).1 "boom" rfl

/-- C7: sample mode with a positive trigger `N` performs exactly `N`
`Do` invocations through one cloned, `Setup`-configured probe whose
deferred `Teardown` runs afterwards, and terminates without producing a
run report; validation and the pool/ramp-up/steady-state pipeline are
never entered. -/
theorem sample_mode_exact_calls {α : Type} (N : Nat) (hN : 0 < N)
    (validateMsgs : List String) (exp2Execute : RunnerState α → RunnerState α)
    (inputs : Nat → StepInput) (fullN : Nat) (window : ℚ) (st : RunnerState α) :
    Run N false validateMsgs exp2Execute inputs fullN window st
      = (none, { clonesMade := 1, doCalls := N, teardownCalled := true,
                 validated := false, pipelineEntered := false }) := by
  unfold Run test
  rw [if_pos hN]
  simp [testCalls_eq]

theorem sample_mode_exact_calls_witness :
    Run 3 false ["bad config"] (fun s => s) (fun _ => ⟨0, 0⟩) 0 1
        (probeState fun _ => none)
      = (none, { clonesMade := 1, doCalls := 3, teardownCalled := true,
                 validated := false, pipelineEntered := false }) :=
  sample_mode_exact_calls 3 (by decide) ["bad config"] (fun s => s)
    (fun _ => ⟨0, 0⟩) 0 1 (probeState fun _ => none)

/-- C9: `tearDownAttackers` calls `Teardown` exactly once on every
registered attacker instance, in registration order, for every
combination of `Teardown` results; an instance whose `Teardown` errors
does not prevent the calls on every remaining instance, each instance's
recorded result is its own `Teardown` result, and the operation itself
always completes. -/
theorem teardown_every_instance_once {α : Type} (td : α → Option String) (l : List α) :
    (tearDownAttackers td l).map Prod.fst = l ∧
    (tearDownAttackers td l).map Prod.snd = l.map td ∧
    (tearDownAttackers td l).length = l.length := by
  induction l with
  | nil => exact ⟨rfl, rfl, rfl⟩
  | cons a rest ih => simp [tearDownAttackers, ih.1, ih.2.1, ih.2.2]

theorem teardown_every_instance_once_witness :
    (tearDownAttackers (fun a => if a = 1 then some "boom" else none) [1, 2, 3]).map Prod.fst
        = [1, 2, 3] ∧
      (tearDownAttackers (fun a => if a = 1 then some "boom" else none) [1, 2, 3]).map Prod.snd
        = [1, 2, 3].map (fun a => if a = 1 then some "boom" else none) ∧
      (tearDownAttackers (fun a => if a = 1 then some "boom" else none) [1, 2, 3]).length
        = [1, 2, 3].length :=
  teardown_every_instance_once (fun a : Nat => if a = 1 then some "boom" else none) [1, 2, 3]

/-- C10: with a strategy selector equal to neither `"linear"` nor
`"exp2"`, `rampUp` executes no strategy at all — the pool, the unit
count, the dispatch-signal count and the `Setup`-call count are
untouched (in particular an empty pool stays empty) — yet the results
pipeline is still reset to the cumulative aggregator and the run
proceeds. -/
theorem rampup_unknown_strategy_noop {α : Type}
    (exp2Execute : RunnerState α → RunnerState α) (inputs : Nat → StepInput)
    (st : RunnerState α) (h1 : st.config.rampupStrategy ≠ "linear")
    (h2 : st.config.rampupStrategy ≠ "exp2") :
    (rampUp exp2Execute inputs st).attackers = st.attackers ∧
    (rampUp exp2Execute inputs st).unitsStarted = st.unitsStarted ∧
    (rampUp exp2Execute inputs st).dispatched = st.dispatched ∧
    (rampUp exp2Execute inputs st).setupCalls = st.setupCalls ∧
    (rampUp exp2Execute inputs st).pipeline = .cumulative := by
  simp only [rampUp]
  rw [if_neg h1, if_neg h2]
  simp

theorem rampup_unknown_strategy_noop_witness :
    (rampUp (fun s => s) (fun _ => ⟨0, 0⟩) probeStateSurge).attackers
        = probeStateSurge.attackers ∧
      (rampUp (fun s => s) (fun _ => ⟨0, 0⟩) probeStateSurge).unitsStarted
        = probeStateSurge.unitsStarted ∧
      (rampUp (fun s => s) (fun _ => ⟨0, 0⟩) probeStateSurge).dispatched
        = probeStateSurge.dispatched ∧
      (rampUp (fun s => s) (fun _ => ⟨0, 0⟩) probeStateSurge).setupCalls
        = probeStateSurge.setupCalls ∧
      (rampUp (fun s => s) (fun _ => ⟨0, 0⟩) probeStateSurge).pipeline = .cumulative :=
  rampup_unknown_strategy_noop (fun s => s) (fun _ => ⟨0, 0⟩) probeStateSurge
    (by decide) (by decide)

/-- C4: after `rampUp` returns, the results pipeline is the cumulative
`addResult` aggregator regardless of which strategy branch executed
(including when the selector matches no branch); consequently an
outcome processed while the pipeline is cumulative is folded only into
the per-label metrics map (every transient step record unchanged), and
an outcome processed while the pipeline points at ramp-up step `i` is
folded only into that step's transient record (the cumulative map and
every other step record unchanged). -/
theorem rampup_pipeline_restored {α : Type} :
    (∀ (exp2Execute : RunnerState α → RunnerState α) (inputs : Nat → StepInput)
        (st : RunnerState α),
      (rampUp exp2Execute inputs st).pipeline = .cumulative) ∧
    (∀ (st : RunnerState α) (s : result), st.pipeline = .cumulative →
      (processOutcome st s).rampRecords = st.rampRecords ∧
      (processOutcome st s).metrics = addResult st.metrics s) ∧
    (∀ (st : RunnerState α) (s : result) (i : Nat), st.pipeline = .rampStep i →
      (processOutcome st s).metrics = st.metrics ∧
      (∀ j, j ≠ i →
        (processOutcome st s).rampRecords.getD j Metrics.empty
          = st.rampRecords.getD j Metrics.empty) ∧
      (i < st.rampRecords.length →
        (processOutcome st s).rampRecords.getD i Metrics.empty
          = (st.rampRecords.getD i Metrics.empty).add s)) := by
  refine ⟨fun e inp st => ?_, fun st s h => ?_, fun st s i h => ?_⟩
  · simp only [rampUp]
  · unfold processOutcome
    rw [h]
    exact ⟨rfl, rfl⟩
  · unfold processOutcome
    rw [h]
    refine ⟨rfl, fun j hj => ?_, fun hi => ?_⟩
    · simp [List.getD_eq_getElem?_getD, List.getElem?_set_ne (Ne.symm hj)]
    · simp [List.getD_eq_getElem?_getD, List.getElem?_set_self, hi]

theorem rampup_pipeline_restored_witness :
    (processOutcome (probeState fun _ => none) outcomeX).rampRecords
        = (probeState fun _ => none).rampRecords ∧
      (processOutcome (probeState fun _ => none) outcomeX).metrics
        = addResult (probeState fun _ => none).metrics outcomeX :=
  (rampup_pipeline_restored (α := Nat)).2.1 (probeState fun _ => none) outcomeX rfl

theorem foldl_add_Requests (ll : List result) :
    ∀ b : Metrics, (ll.foldl Metrics.add b).Requests = b.Requests + ll.length := by
  induction ll with
  | nil => intro b; simp
  | cons s rest ih =>
    intro b
    rw [List.foldl_cons, ih]
    simp [Metrics.add]
    omega

theorem foldl_add_failed (ll : List result) :
    ∀ b : Metrics, (ll.foldl Metrics.add b).failed
      = b.failed + ll.countP (fun t => t.doResult.Error.isSome) := by
  induction ll with
  | nil => intro b; simp
  | cons s rest ih =>
    intro b
    rw [List.foldl_cons, ih, List.countP_cons]
    by_cases he : s.doResult.Error.isSome
    · simp [Metrics.add, he]
      omega
    · simp [Metrics.add, he]

theorem foldl_addResult_apply (os : List result) :
    ∀ (M : String → Option Metrics) (l : String),
      os.foldl addResult M l =
        if os.countP (fun t => t.doResult.RequestLabel == l) = 0 then M l
        else some ((os.filter (fun t => t.doResult.RequestLabel == l)).foldl Metrics.add
            ((M l).getD Metrics.empty)) := by
  induction os with
  | nil => intro M l; simp
  | cons s rest ih =>
    intro M l
    rw [List.foldl_cons, ih, List.countP_cons, List.filter_cons]
    by_cases hl : s.doResult.RequestLabel = l
    · have hb : (s.doResult.RequestLabel == l) = true := by simp [hl]
      have haddR : addResult M s l = some (((M l).getD Metrics.empty).add s) := by
        unfold addResult
        rw [if_pos hl.symm, hl]
      rw [hb, haddR]
      by_cases hr : rest.countP (fun t => t.doResult.RequestLabel == l) = 0
      · have hfil : rest.filter (fun t => t.doResult.RequestLabel == l) = [] := by
          rw [List.countP_eq_length_filter] at hr
          exact List.eq_nil_of_length_eq_zero hr
        simp [hr, hfil]
      · simp [hr]
    · have hb : (s.doResult.RequestLabel == l) = false := by simp [hl]
      have haddR : addResult M s l = M l := by
        unfold addResult
        rw [if_neg (fun he => hl he.symm)]
      rw [hb, haddR]
      simp

/-- C8: cumulative metrics aggregation through `addResult` is
order-independent — any two permutations of the same multiset of call
outcomes produce maps defined on the same labels and, for every label,
the same final count, the same error count and (after finalization over
any elapsed window) the same rate. -/
theorem aggregation_perm_invariant (os₁ os₂ : List result) (hp : os₁.Perm os₂)
    (l : String) (w : ℚ) :
    ((metricsOf os₁ l).isSome ↔ (metricsOf os₂ l).isSome) ∧
    (metricsOf os₁ l).map Metrics.Requests = (metricsOf os₂ l).map Metrics.Requests ∧
    (metricsOf os₁ l).map Metrics.failed = (metricsOf os₂ l).map Metrics.failed ∧
    (metricsOf os₁ l).map (fun m => (Metrics.updateLatencies w m).Rate)
      = (metricsOf os₂ l).map (fun m => (Metrics.updateLatencies w m).Rate) := by
  have hc := hp.countP_eq (fun t => t.doResult.RequestLabel == l)
  have hf := hp.filter (fun t => t.doResult.RequestLabel == l)
  have h1 := foldl_addResult_apply os₁ (fun _ => none) l
  have h2 := foldl_addResult_apply os₂ (fun _ => none) l
  unfold metricsOf
  rw [h1, h2, hc]
  by_cases h0 : os₂.countP (fun t => t.doResult.RequestLabel == l) = 0
  · simp only [if_pos h0]
    simp
  · simp only [if_neg h0]
    have hlen := hf.length_eq
    have hfailc := hf.countP_eq (fun t => t.doResult.Error.isSome)
    have hreq : ((os₁.filter (fun t => t.doResult.RequestLabel == l)).foldl Metrics.add
          Metrics.empty).Requests
        = ((os₂.filter (fun t => t.doResult.RequestLabel == l)).foldl Metrics.add
          Metrics.empty).Requests := by
      rw [foldl_add_Requests, foldl_add_Requests, hlen]
    simp only [Option.getD_none, Option.map_some', Option.isSome_some]
    refine ⟨trivial, ?_, ?_, ?_⟩
    · rw [hreq]
    · rw [foldl_add_failed, foldl_add_failed, hfailc]
    · simp only [Metrics.updateLatencies]
      rw [hreq]

theorem aggregation_perm_invariant_witness :
    ((metricsOf [outcomeX, outcomeY] "x").isSome
        ↔ (metricsOf [outcomeY, outcomeX] "x").isSome) ∧
      (metricsOf [outcomeX, outcomeY] "x").map Metrics.Requests
        = (metricsOf [outcomeY, outcomeX] "x").map Metrics.Requests ∧
      (metricsOf [outcomeX, outcomeY] "x").map Metrics.failed
        = (metricsOf [outcomeY, outcomeX] "x").map Metrics.failed ∧
      (metricsOf [outcomeX, outcomeY] "x").map (fun m => (Metrics.updateLatencies 1 m).Rate)
        = (metricsOf [outcomeY, outcomeX] "x").map (fun m => (Metrics.updateLatencies 1 m).Rate) :=
  aggregation_perm_invariant [outcomeX, outcomeY] [outcomeY, outcomeX]
    (List.Perm.swap outcomeY outcomeX []) "x" 1

end Hazana
